import Mathlib

/-!
Shallow embedding of the core logic of `app_main.cpp` (ESP32-C3 Matter node
firmware): the CRC-8 routine, the UART frame encoder `uart_send_frame`, the
incremental frame decoder of `uart_rx_task`, the command handlers, and the
debounced mode-arbitration loop of `mode_sync_task` together with the tap
ingestion of `app_attribute_update_cb`.

Bytes are modelled as `Nat` with explicit `% 256` wherever the C code's
`uint8_t` arithmetic can wrap.  Timestamps are modelled in milliseconds
(the C code keeps microseconds and divides by 1000 before every comparison).
-/

/-- Frame start marker `FRAME_START` (0xA5). -/
def FRAME_START : Nat := 0xA5

/-- CRC polynomial `CRC_POLY` (0x31). -/
def CRC_POLY : Nat := 0x31

/-- Command code `CMD_HELLO`. -/
def CMD_HELLO : Nat := 0x01

/-- Command code `CMD_SET_MODE`. -/
def CMD_SET_MODE : Nat := 0x02

/-- Command code `CMD_TRIGGER`. -/
def CMD_TRIGGER : Nat := 0x03

/-- Command code `CMD_PING`. -/
def CMD_PING : Nat := 0x04

/-- Response code `RSP_ACK`. -/
def RSP_ACK : Nat := 0x80

/-- Response code `RSP_ERR`. -/
def RSP_ERR : Nat := 0x81

/-- Response code `RSP_BUSY`. -/
def RSP_BUSY : Nat := 0x82

/-- One shift-and-xor round of the inner loop of `crc8` (lines 167-173):
`if (crc & 0x80) crc = (crc << 1) ^ CRC_POLY; else crc <<= 1;` on a
`uint8_t`, so the result is truncated with `% 256`. -/
def crc8_round (c : Nat) : Nat :=
  if c &&& 0x80 ≠ 0 then ((c <<< 1) ^^^ CRC_POLY) % 256 else (c <<< 1) % 256

/-- The inner `for (j = 0; j < 8; j++)` loop of `crc8`, running `j` rounds. -/
def crc8_rounds : Nat → Nat → Nat
  | c, 0 => c
  | c, j + 1 => crc8_rounds (crc8_round c) j

/-- One outer-loop iteration of `crc8`: `crc ^= data[i]` followed by the
eight shift rounds. -/
def crc8_update (c b : Nat) : Nat := crc8_rounds (c ^^^ b) 8

/-- The `crc8` function (lines 163-176): 8-bit CRC, polynomial 0x31,
initial value 0x00, MSB-first, no final xor, over a byte list. -/
def crc8 (data : List Nat) : Nat := data.foldl crc8_update 0x00

/-- The `uart_send_frame` function (lines 179-209).  It builds
`[0xA5][len][cmd][payload...][crc]` in a 64-byte stack buffer with
`len = 1 + payload_len` (a `uint8_t`, hence `% 256`) and the CRC computed
over `[len][cmd][payload...]`, then writes the buffer to the UART.  The C
code performs no size validation at all: for `payload_len ≤ 60` every
buffer write is in bounds and exactly the bytes below are emitted; for
`payload_len > 60` the unchecked `memcpy` would write past the 64-byte
buffer `frame` (undefined behavior), which is modelled as `none`. -/
def uart_send_frame (cmd : Nat) (payload : List Nat) : Option (List Nat) :=
  if payload.length > 60 then none
  else
    some (FRAME_START :: ((1 + payload.length) % 256) :: cmd ::
      (payload ++ [crc8 (((1 + payload.length) % 256) :: cmd :: payload)]))

/-- The local parser variables of `uart_rx_task` (lines 373-380): `state`
(0 = wait start, 1 = length, 2 = cmd+payload, 3 = crc), the frame buffer
`frame_buf` with its write index `buf_idx` (modelled as the list of bytes
written so far, whose length is `buf_idx`), `frame_len`, `bytes_to_read`
and the captured `cmd` byte. -/
structure RxState where
  state : Nat
  buf : List Nat
  frame_len : Nat
  bytes_to_read : Nat
  cmd : Nat
  deriving Repr, DecidableEq

/-- The parser state at task start: state 0, empty buffer, zeroed locals. -/
def rxInit : RxState := ⟨0, [], 0, 0, 0⟩

/-- One byte of the incremental decoder: the `switch (state)` body of
`uart_rx_task` (lines 390-466).  Returns the successor state together with
the (empty or singleton) list of CRC-valid frames `(cmd, payload)` handed
on for dispatch by this byte.  State 1 stores the byte and resets the
buffer when the length is invalid (`len == 0 || len > 60`), exactly as the
code resets `buf_idx`.  In state 2 the C decrement `bytes_to_read--` acts
on a value that is at least 1 in every state reachable from `rxInit`, so
the saturating `Nat` subtraction agrees with the `uint8_t` one there.
State 3 recomputes the CRC over `frame_buf[1..]`, i.e. the length byte
plus the body, and on a match extracts the payload
(`frame_len - 1` bytes starting at `frame_buf[3]`). -/
def rx_step (s : RxState) (b : Nat) : RxState × List (Nat × List Nat) :=
  match s.state with
  | 0 =>
      if b = FRAME_START then ({ s with state := 1, buf := s.buf ++ [b] }, [])
      else (s, [])
  | 1 =>
      if b = 0 ∨ b > 60 then ({ s with state := 0, buf := [], frame_len := b }, [])
      else ({ s with state := 2, buf := s.buf ++ [b], frame_len := b, bytes_to_read := b }, [])
  | 2 =>
      let buf := s.buf ++ [b]
      let c := if buf.length = 3 then b else s.cmd
      if s.bytes_to_read - 1 = 0 then
        ({ s with state := 3, buf := buf, cmd := c, bytes_to_read := 0 }, [])
      else
        ({ s with state := 2, buf := buf, cmd := c, bytes_to_read := s.bytes_to_read - 1 }, [])
  | _ =>
      let buf := s.buf ++ [b]
      let calc_crc := crc8 ((buf.drop 1).take (buf.length - 2))
      let out := if calc_crc = b then [(s.cmd, (buf.drop 3).take (s.frame_len - 1))] else []
      ({ s with state := 0, buf := [] }, out)

/-- Feeding a byte list to the decoder, collecting the decoded frames in
order (the `for (int i = 0; i < len; i++)` loop over received bytes). -/
def rx_run : RxState → List Nat → RxState × List (Nat × List Nat)
  | s, [] => (s, [])
  | s, b :: bs =>
      let r := rx_step s b
      let rest := rx_run r.1 bs
      (rest.1, r.2 ++ rest.2)

/-- The `handle_cmd_trigger` handler (lines 229-242) acting on the
`g_pulse_active` flag: when a pulse is active it sends BUSY, otherwise it
sends ACK.  The ACK branch is an acknowledged placeholder (`TODO: In
future, actually trigger skit here`): it performs only LED feedback and
neither calls `start_pulse` nor touches `g_pulse_active`, so the flag is
returned unchanged on both paths. -/
def handle_cmd_trigger (pulse_active : Bool) : Bool × Nat :=
  if pulse_active then (pulse_active, RSP_BUSY) else (pulse_active, RSP_ACK)

/-- The `handle_cmd_set_mode` handler (lines 244-267) acting on
`g_current_mode`: an empty payload (`len < 1`) or a first byte above 3
yields ERR with the mode unchanged; otherwise the mode becomes
`payload[0]` and ACK is sent.  Payload bytes beyond the first are never
inspected. -/
def handle_cmd_set_mode (current_mode : Nat) (payload : List Nat) : Nat × Nat :=
  match payload with
  | [] => (current_mode, RSP_ERR)
  | mode :: _ => if mode > 3 then (current_mode, RSP_ERR) else (mode, RSP_ACK)

/-- The `start_pulse` function (lines 553-590) acting on `g_pulse_active`:
if a pulse is already active it returns without change; otherwise it marks
the pulse active (and schedules the 500 ms one-shot timer that later
clears the flag, modelled separately by `pulse_timer_end`). -/
def start_pulse (pulse_active : Bool) : Bool :=
  if pulse_active then pulse_active else true

/-- The pulse-end timer callback inside `start_pulse` (lines 566-582): it
clears `g_pulse_active`. -/
def pulse_timer_end (_pulse_active : Bool) : Bool := false

/-- The shared state read by the dispatch layer: `g_current_mode` and
`g_pulse_active`. -/
structure DispState where
  current_mode : Nat
  pulse_active : Bool
  deriving Repr, DecidableEq

/-- The dispatch block of `uart_rx_task` (lines 432-457): a byte
`cmd ≥ 0x80` is a response from the peer and is only logged; a command is
routed to its handler; an unknown command gets an ERR response.  Returns
the new shared state and the response bytes sent back over the UART. -/
def dispatch_frame (st : DispState) (cmd : Nat) (payload : List Nat) : DispState × List Nat :=
  if cmd ≥ 0x80 then (st, [])
  else if cmd = CMD_HELLO then (st, [RSP_ACK])
  else if cmd = CMD_PING then (st, [RSP_ACK])
  else if cmd = CMD_TRIGGER then
    let r := handle_cmd_trigger st.pulse_active
    ({ st with pulse_active := r.1 }, [r.2])
  else if cmd = CMD_SET_MODE then
    let r := handle_cmd_set_mode st.current_mode payload
    ({ st with current_mode := r.1 }, [r.2])
  else (st, [RSP_ERR])

/-- Dispatching a list of decoded frames in order. -/
def dispatch_run (st : DispState) : List (Nat × List Nat) → DispState × List Nat
  | [] => (st, [])
  | f :: fs =>
      let r := dispatch_frame st f.1 f.2
      let rest := dispatch_run r.1 fs
      (rest.1, r.2 ++ rest.2)

/-- The responses emitted while feeding a raw byte stream through the
decoder and the dispatch layer, starting from a fresh parser. -/
def stream_responses (st : DispState) (bs : List Nat) : DispState × List Nat :=
  dispatch_run st (rx_run rxInit bs).2

/-- The shared arbiter state of `mode_sync_task`: `g_current_mode`,
`g_target_mode` (`-1` = none, modelled as `Option`), `g_last_tap_time`,
`g_last_execution_time` (both in milliseconds) and the task-local
`cleanup_done` flag. -/
structure SyncState where
  current_mode : Nat
  target_mode : Option Nat
  last_tap_time : Nat
  last_execution_time : Nat
  cleanup_done : Bool
  deriving Repr, DecidableEq

/-- Arbiter state at boot with current mode `c`: no pending target, zero
timestamps, `cleanup_done` false. -/
def arbInit (c : Nat) : SyncState := ⟨c, none, 0, 0, false⟩

/-- The attribute-report sequence of a mode execution (lines 299-317, and
identically lines 336-353 for the safety cleanup): force-report OFF for
every endpoint `i ≠ m` in index order, then force-report ON for `m`.
Each element is `(endpoint index, reported value)`. -/
def exec_reports (m : Nat) : List (Nat × Bool) :=
  (((List.range 4).filter (fun i => i ≠ m)).map (fun i => (i, false))) ++ [(m, true)]

/-- One iteration of the `while (1)` body of `mode_sync_task`
(lines 276-368) at absolute time `now` (milliseconds).  Returns the new
state, the mode executions `(mode, time)` performed, and the safety
cleanups `(mode, time)` performed.  Mirrors the code exactly: the two
elapsed times are computed once at the top, so the cleanup check on an
executing tick still sees the pre-execution `time_since_exec_ms`; the
execution block does not touch `cleanup_done`; the trailing
`if (g_target_mode >= 0 && cleanup_done) cleanup_done = false;` reads the
live values after both blocks.  (`g_syncing_modes` is raised and lowered
inside each block; the tick is modelled atomically, so the flag is false
whenever a tap event is processed.) -/
def mode_sync_tick (s : SyncState) (now : Nat) : SyncState × List (Nat × Nat) × List (Nat × Nat) :=
  let time_since_tap := now - s.last_tap_time
  let time_since_exec := now - s.last_execution_time
  let r1 :=
    match s.target_mode with
    | some m =>
        if m ≠ s.current_mode ∧ time_since_tap ≥ 200 then
          ({ s with current_mode := m, target_mode := none, last_execution_time := now },
           [(m, now)])
        else (s, [])
    | none => (s, [])
  let s1 := r1.1
  let r2 :=
    if time_since_exec ≥ 5000 ∧ time_since_tap ≥ 5000 ∧ ¬s1.cleanup_done then
      ({ s1 with cleanup_done := true }, [(s1.current_mode, now)])
    else (s1, [])
  let s2 := r2.1
  let s3 :=
    if s2.target_mode.isSome ∧ s2.cleanup_done then { s2 with cleanup_done := false } else s2
  (s3, r1.2, r2.2)

/-- Tap ingestion in `app_attribute_update_cb` (lines 632-642): a mode
endpoint observed going ON outside the arbiter's own sync window records
the target mode and the tap time; OFF observations are ignored. -/
def ingest_tap (s : SyncState) (mode now : Nat) : SyncState :=
  { s with target_mode := some mode, last_tap_time := now }

/-- An externally visible arbiter event: a user tap on a mode endpoint, or
one 10 ms tick of `mode_sync_task`, each stamped with its absolute time in
milliseconds. -/
inductive ArbEvent where
  | tap (mode : Nat) (t : Nat)
  | tick (t : Nat)
  deriving Repr, DecidableEq

/-- Running the arbiter over a time-ordered event list, collecting the
mode executions and the safety cleanups. -/
def arb_run : SyncState → List ArbEvent → SyncState × List (Nat × Nat) × List (Nat × Nat)
  | s, [] => (s, [], [])
  | s, ArbEvent.tap m t :: es => arb_run (ingest_tap s m t) es
  | s, ArbEvent.tick t :: es =>
      let r := mode_sync_tick s t
      let rest := arb_run r.1 es
      (rest.1, r.2.1 ++ rest.2.1, r.2.2 ++ rest.2.2)

/-- The tick times of the 10 ms task cadence: `n` ticks starting at `t0`. -/
def tick_seq (t0 n : Nat) : List ArbEvent :=
  (List.range n).map (fun i => ArbEvent.tick (t0 + 10 * i))

/-- Flipping bit `k` of byte `i` of a byte stream. -/
def flip_bit (l : List Nat) (i k : Nat) : List Nat :=
  l.set i ((l.getD i 0) ^^^ (1 <<< k))

/-! CRC-8 arithmetic lemmas: the shift round is invertible on bytes, hence
the whole CRC is injective in any single message byte, which is what makes
single-bit corruption detectable. -/

/-- Inverse of one CRC shift round on a byte: the low bit of the result
records which branch was taken. -/
def crc8_round_inv (r : Nat) : Nat :=
  if r &&& 1 = 1 then (r ^^^ CRC_POLY) / 2 + 128 else r / 2

lemma crc8_round_lt (c : Nat) : crc8_round c < 256 := by
  unfold crc8_round
  split <;> exact Nat.mod_lt _ (by norm_num)

lemma crc8_rounds_lt (j c : Nat) (h : 0 < j) : crc8_rounds c j < 256 := by
  induction j generalizing c with
  | zero => omega
  | succ n ih =>
    cases n with
    | zero => simpa [crc8_rounds] using crc8_round_lt c
    | succ m =>
      have := ih (crc8_round c) (Nat.succ_pos m)
      simpa [crc8_rounds] using this

lemma crc8_update_lt (c b : Nat) : crc8_update c b < 256 :=
  crc8_rounds_lt 8 _ (by norm_num)

lemma foldl_crc8_update_lt (l : List Nat) (c : Nat) (h : c < 256) :
    l.foldl crc8_update c < 256 := by
  induction l generalizing c with
  | nil => simpa
  | cons x xs ih => simpa [List.foldl_cons] using ih (crc8_update c x) (crc8_update_lt c x)

lemma crc8_lt (l : List Nat) : crc8 l < 256 := foldl_crc8_update_lt l 0 (by norm_num)

set_option maxRecDepth 4096 in
lemma crc8_round_leftinv : ∀ c < 256, crc8_round_inv (crc8_round c) = c := by decide

lemma crc8_round_inj (a b : Nat) (ha : a < 256) (hb : b < 256)
    (h : crc8_round a = crc8_round b) : a = b := by
  have h1 := crc8_round_leftinv a ha
  have h2 := crc8_round_leftinv b hb
  rw [← h1, ← h2, h]

lemma crc8_rounds_inj (j : Nat) : ∀ a b, a < 256 → b < 256 →
    crc8_rounds a j = crc8_rounds b j → a = b := by
  induction j with
  | zero => intro a b _ _ h; simpa [crc8_rounds] using h
  | succ n ih =>
    intro a b ha hb h
    have hr : crc8_round a = crc8_round b := by
      refine ih (crc8_round a) (crc8_round b) (crc8_round_lt a) (crc8_round_lt b) ?_
      simpa [crc8_rounds] using h
    exact crc8_round_inj a b ha hb hr

lemma xor_lt_256 (a b : Nat) (ha : a < 256) (hb : b < 256) : a ^^^ b < 256 := by
  have h8 : (256 : Nat) = 2 ^ 8 := by norm_num
  rw [h8] at ha hb ⊢
  exact Nat.xor_lt_two_pow ha hb

lemma crc8_update_inj_state (c c' b : Nat) (hc : c < 256) (hc' : c' < 256) (hb : b < 256)
    (h : crc8_update c b = crc8_update c' b) : c = c' := by
  unfold crc8_update at h
  have := crc8_rounds_inj 8 (c ^^^ b) (c' ^^^ b)
    (xor_lt_256 c b hc hb) (xor_lt_256 c' b hc' hb) h
  exact Nat.xor_left_inj.mp this

lemma crc8_update_inj_byte (c x y : Nat) (hc : c < 256) (hx : x < 256) (hy : y < 256)
    (h : crc8_update c x = crc8_update c y) : x = y := by
  unfold crc8_update at h
  have := crc8_rounds_inj 8 (c ^^^ x) (c ^^^ y)
    (xor_lt_256 c x hc hx) (xor_lt_256 c y hc hy) h
  exact Nat.xor_right_inj.mp this

lemma foldl_crc8_update_ne (l : List Nat) : ∀ a b, a < 256 → b < 256 →
    (∀ x ∈ l, x < 256) → a ≠ b →
    l.foldl crc8_update a ≠ l.foldl crc8_update b := by
  induction l with
  | nil => intro a b _ _ _ hne; simpa
  | cons x xs ih =>
    intro a b ha hb hl hne
    simp only [List.foldl_cons]
    refine ih (crc8_update a x) (crc8_update b x) (crc8_update_lt a x) (crc8_update_lt b x)
      (fun y hy => hl y (List.mem_cons_of_mem x hy)) ?_
    intro heq
    exact hne (crc8_update_inj_state a b x ha hb (hl x (List.mem_cons_self x xs)) heq)

lemma one_shiftLeft_lt_256 (k : Nat) (hk : k < 8) : 1 <<< k < 256 := by
  rw [Nat.one_shiftLeft]
  calc 2 ^ k < 2 ^ 8 := Nat.pow_lt_pow_right (by norm_num) hk
    _ = 256 := by norm_num

lemma one_shiftLeft_ne_zero (k : Nat) : 1 <<< k ≠ 0 := by
  rw [Nat.one_shiftLeft]
  positivity

/-- Flipping one bit of any single message byte changes the CRC-8 value:
the per-byte update is injective in the byte, and injective in the running
state for the remaining bytes. -/
lemma crc8_flip_ne (pre : List Nat) (b : Nat) (suf : List Nat) (k : Nat)
    (hb : b < 256) (hsuf : ∀ x ∈ suf, x < 256) (hk : k < 8) :
    crc8 (pre ++ (b ^^^ (1 <<< k)) :: suf) ≠ crc8 (pre ++ b :: suf) := by
  unfold crc8
  rw [List.foldl_append, List.foldl_append]
  simp only [List.foldl_cons]
  have hc0 : pre.foldl crc8_update 0 < 256 := foldl_crc8_update_lt pre 0 (by norm_num)
  refine foldl_crc8_update_ne suf _ _ (crc8_update_lt _ _) (crc8_update_lt _ _) hsuf ?_
  intro heq
  have hflip : b ^^^ (1 <<< k) = b :=
    crc8_update_inj_byte _ _ _ hc0
      (xor_lt_256 b _ hb (one_shiftLeft_lt_256 k hk)) hb heq
  have h0 : b ^^^ (1 <<< k) = b ^^^ 0 := by simpa using hflip
  exact one_shiftLeft_ne_zero k (Nat.xor_right_inj.mp h0)

/-! Decoder run lemmas: behavior of `rx_run` on garbage bytes, on
concatenated streams, and on a complete frame. -/

lemma rx_step_skip (s : RxState) (b : Nat) (hs : s.state = 0) (hb : b ≠ FRAME_START) :
    rx_step s b = (s, []) := by
  unfold rx_step
  rw [hs]
  simp [hb]

lemma rx_run_garbage (junk : List Nat) (h : ∀ x ∈ junk, x ≠ FRAME_START) :
    rx_run rxInit junk = (rxInit, []) := by
  induction junk with
  | nil => rfl
  | cons b bs ih =>
    have hb : b ≠ FRAME_START := h b (List.mem_cons_self b bs)
    have ih' := ih (fun x hx => h x (List.mem_cons_of_mem b hx))
    simp [rx_run, rx_step_skip rxInit b rfl hb, ih']


lemma rx_run_cons (s : RxState) (b : Nat) (bs : List Nat) :
    rx_run s (b :: bs) =
      ((rx_run (rx_step s b).1 bs).1, (rx_step s b).2 ++ (rx_run (rx_step s b).1 bs).2) := rfl

lemma rx_run_append (s : RxState) (xs ys : List Nat) :
    rx_run s (xs ++ ys) =
      ((rx_run (rx_run s xs).1 ys).1,
       (rx_run s xs).2 ++ (rx_run (rx_run s xs).1 ys).2) := by
  induction xs generalizing s with
  | nil => simp [rx_run]
  | cons b bs ih =>
    rw [List.cons_append, rx_run_cons, ih (rx_step s b).1, rx_run_cons]
    simp [List.append_assoc]

lemma rx_run_body (body : List Nat) : ∀ (buf : List Nat) (fl c0 : Nat),
    body ≠ [] → 3 ≤ buf.length →
    rx_run ⟨2, buf, fl, body.length, c0⟩ body = (⟨3, buf ++ body, fl, 0, c0⟩, []) := by
  induction body with
  | nil => intro buf fl c0 hne _; exact absurd rfl hne
  | cons b bs ih =>
    intro buf fl c0 _ hbuf
    have hlen2 : ¬(buf.length = 2) := by omega
    cases bs with
    | nil =>
      have hstep : rx_step ⟨2, buf, fl, [b].length, c0⟩ b = (⟨3, buf ++ [b], fl, 0, c0⟩, []) := by
        simp [rx_step, hlen2]
      rw [show ([b] : List Nat).length = 1 from rfl] at hstep
      rw [show ((b :: []) : List Nat).length = 1 from rfl]
      rw [rx_run_cons, hstep]
      simp [rx_run]
    | cons b2 bs2 =>
      have hstep : rx_step ⟨2, buf, fl, (b :: b2 :: bs2).length, c0⟩ b =
          (⟨2, buf ++ [b], fl, (b2 :: bs2).length, c0⟩, []) := by
        simp [rx_step, hlen2]
      have ih' := ih (buf ++ [b]) fl c0 (by simp) (by simp; omega)
      rw [rx_run_cons, hstep]
      dsimp only
      rw [ih']
      simp [List.append_assoc]

lemma rx_run_body_from2 (buf : List Nat) (b : Nat) (rest : List Nat) (fl c0 : Nat)
    (hbuf : buf.length = 2) :
    rx_run ⟨2, buf, fl, rest.length + 1, c0⟩ (b :: rest) =
      (⟨3, buf ++ b :: rest, fl, 0, b⟩, []) := by
  cases rest with
  | nil =>
    have hstep : rx_step ⟨2, buf, fl, 1, c0⟩ b = (⟨3, buf ++ [b], fl, 0, b⟩, []) := by
      simp [rx_step, hbuf]
    rw [rx_run_cons]
    simp only [List.length_nil, Nat.zero_add]
    rw [hstep]
    simp [rx_run]
  | cons b2 bs2 =>
    have hstep : rx_step ⟨2, buf, fl, (b2 :: bs2).length + 1, c0⟩ b =
        (⟨2, buf ++ [b], fl, (b2 :: bs2).length, b⟩, []) := by
      simp [rx_step, hbuf]
    have hbody := rx_run_body (b2 :: bs2) (buf ++ [b]) fl b (by simp) (by simp [hbuf])
    rw [rx_run_cons, hstep]
    dsimp only
    rw [hbody]
    simp [List.append_assoc]

lemma rx_step_crc (bufr : List Nat) (fl btr cmd0 b : Nat) :
    rx_step ⟨3, bufr, fl, btr, cmd0⟩ b =
      (⟨0, [], fl, btr, cmd0⟩,
       if crc8 (((bufr ++ [b]).drop 1).take ((bufr ++ [b]).length - 2)) = b then
         [(cmd0, ((bufr ++ [b]).drop 3).take (fl - 1))]
       else []) := rfl

/-- Running the decoder from a fresh parser over one complete wire frame:
the frame is delivered exactly when the trailing CRC byte matches the CRC
of the length byte and body, and the parser returns to wait-start with an
empty buffer either way. -/
lemma rx_run_frame (len b : Nat) (rest : List Nat) (crcb : Nat)
    (hlen : rest.length + 1 = len) (h60 : len ≤ 60) :
    rx_run rxInit (FRAME_START :: len :: ((b :: rest) ++ [crcb])) =
      (⟨0, [], len, 0, b⟩,
       if crc8 (len :: b :: rest) = crcb then [(b, rest)] else []) := by
  have hstep0 : rx_step rxInit FRAME_START = (⟨1, [FRAME_START], 0, 0, 0⟩, []) := by
    simp [rx_step, rxInit]
  have hstep1 : rx_step ⟨1, [FRAME_START], 0, 0, 0⟩ len =
      (⟨2, [FRAME_START, len], len, len, 0⟩, []) := by
    have hh : ¬(len = 0 ∨ len > 60) := by omega
    simp [rx_step, hh]
  have hbody := rx_run_body_from2 [FRAME_START, len] b rest len 0 rfl
  rw [hlen] at hbody
  have hstep3 := rx_step_crc ([FRAME_START, len] ++ b :: rest) len 0 b crcb
  have hd1 : ((([FRAME_START, len] ++ b :: rest) ++ [crcb]).drop 1) =
      (len :: b :: rest) ++ [crcb] := by simp
  have hl2 : (([FRAME_START, len] ++ b :: rest) ++ [crcb]).length - 2 = len + 1 := by
    simp
    omega
  have ht1 : ((len :: b :: rest) ++ [crcb]).take (len + 1) = len :: b :: rest := by
    refine List.take_left' ?_
    simp
    omega
  have hd3 : ((([FRAME_START, len] ++ b :: rest) ++ [crcb]).drop 3) = rest ++ [crcb] := by
    simp
  have ht3 : (rest ++ [crcb]).take (len - 1) = rest := by
    refine List.take_left' ?_
    omega
  rw [hd1, hl2, ht1, hd3, ht3] at hstep3
  rw [rx_run_cons, hstep0]
  dsimp only
  rw [rx_run_cons, hstep1]
  dsimp only
  rw [rx_run_append, hbody]
  dsimp only
  rw [rx_run_cons, hstep3]
  simp [rx_run]

/-- Shared round-trip core: for any payload of at most 59 bytes the encoder
emits one well-formed frame, and the decoder, fed exactly that frame from a
fresh parser, delivers the command and payload once and returns to
wait-start. -/
lemma roundtrip_core (cmd : Nat) (payload : List Nat) (hp : payload.length ≤ 59) :
    uart_send_frame cmd payload =
      some (FRAME_START :: (payload.length + 1) ::
        ((cmd :: payload) ++ [crc8 ((payload.length + 1) :: cmd :: payload)])) ∧
    rx_run rxInit (FRAME_START :: (payload.length + 1) ::
        ((cmd :: payload) ++ [crc8 ((payload.length + 1) :: cmd :: payload)])) =
      (⟨0, [], payload.length + 1, 0, cmd⟩, [(cmd, payload)]) := by
  have hmod : (1 + payload.length) % 256 = payload.length + 1 := by
    rw [Nat.mod_eq_of_lt (by omega)]
    omega
  constructor
  · unfold uart_send_frame
    rw [if_neg (by omega), hmod]
    rfl
  · have hframe := rx_run_frame (payload.length + 1) cmd payload
      (crc8 ((payload.length + 1) :: cmd :: payload)) rfl (by omega)
    rw [hframe, if_pos rfl]

/-- C1: for every command byte and every payload of at most 58 bytes, the
encoder succeeds and feeding its byte sequence to the incremental decoder
yields exactly one decoded frame, whose command and payload equal the
encoded ones; the parser ends back in wait-start with an empty buffer. -/
theorem frame_roundtrip (cmd : Nat) (payload : List Nat)
    (hc : cmd < 256) (hp : payload.length ≤ 58) (hb : ∀ x ∈ payload, x < 256) :
    ∃ bs, uart_send_frame cmd payload = some bs ∧
      (rx_run rxInit bs).2 = [(cmd, payload)] ∧
      (rx_run rxInit bs).1.state = 0 ∧ (rx_run rxInit bs).1.buf = [] := by
  obtain ⟨henc, hrun⟩ := roundtrip_core cmd payload (by omega)
  exact ⟨_, henc, by rw [hrun], by rw [hrun], by rw [hrun]⟩

/-- Witness for `frame_roundtrip`: command 0x02 with the 1-byte payload
[0x03]. -/
theorem frame_roundtrip_witness :
    ∃ bs, uart_send_frame 0x02 [0x03] = some bs ∧
      (rx_run rxInit bs).2 = [(0x02, [0x03])] ∧
      (rx_run rxInit bs).1.state = 0 ∧ (rx_run rxInit bs).1.buf = [] :=
  frame_roundtrip 0x02 [0x03] (by decide) (by decide) (by decide)

/-- C6 counterexample: a 59-byte payload, above the claimed 58-byte bound,
is not rejected: `uart_send_frame` emits a complete 63-byte frame (the C
code contains no size check at all). -/
theorem oversize_payload_still_encoded :
    (uart_send_frame 0x01 (List.replicate 59 0)).isSome = true ∧
    ((uart_send_frame 0x01 (List.replicate 59 0)).getD []).length = 63 := by
  exact ⟨rfl, by decide⟩

/-- C6 amended: the encoder performs no payload-size validation; every
payload of length at most 60 — including lengths 59 and 60, which exceed
the specified 58-byte bound — is encoded into a complete frame of
payload-length + 4 bytes.  (Only above 60 bytes is there no well-defined
output, because the unchecked writes would overrun the encoder's 64-byte
stack buffer.) -/
theorem encoder_no_size_check (cmd : Nat) (payload : List Nat) (h : payload.length ≤ 60) :
    ∃ bs, uart_send_frame cmd payload = some bs ∧ bs.length = payload.length + 4 := by
  refine ⟨FRAME_START :: ((1 + payload.length) % 256) :: cmd ::
      (payload ++ [crc8 (((1 + payload.length) % 256) :: cmd :: payload)]), ?_, ?_⟩
  · unfold uart_send_frame
    rw [if_neg (by omega)]
  · simp

/-- Witness for `encoder_no_size_check`: a 60-byte payload. -/
theorem encoder_no_size_check_witness :
    ∃ bs, uart_send_frame 0x01 (List.replicate 60 0) = some bs ∧
      bs.length = (List.replicate 60 (0 : Nat)).length + 4 :=
  encoder_no_size_check 0x01 (List.replicate 60 0) (by decide)

set_option maxRecDepth 8192 in
/-- C8 counterexample: the truncated frame header [0xA5, 0x3C] — a start
marker plus a claimed body length of 60 — followed by the complete valid
PING frame yields zero successful decodes: the decoder swallows the whole
valid frame as body bytes of the phantom frame and is left waiting in the
body state. -/
theorem truncated_header_swallows_frame :
    uart_send_frame CMD_PING [] = some [0xA5, 0x01, 0x04, 0x30] ∧
    (rx_run rxInit ([0xA5, 0x3C] ++ [0xA5, 0x01, 0x04, 0x30])).2 = [] ∧
    (rx_run rxInit ([0xA5, 0x3C] ++ [0xA5, 0x01, 0x04, 0x30])).1.state = 2 := by
  refine ⟨?_, ?_, ?_⟩ <;> decide

/-- C8 amended: feeding the decoder an arbitrary garbage prefix that
contains no 0xA5 start-marker byte, followed by one valid encoded frame,
yields exactly one successful decode — of that frame — and leaves the
parser in wait-start with an empty buffer.  (A prefix containing 0xA5 can
capture the following frame's bytes as its own, as the counterexample
shows, so the claim's arbitrary truncated prefix must be excluded.) -/
theorem resync_after_markerless_garbage (junk : List Nat) (cmd : Nat) (payload : List Nat)
    (hj : ∀ x ∈ junk, x ≠ FRAME_START)
    (hc : cmd < 256) (hp : payload.length ≤ 58) (hb : ∀ x ∈ payload, x < 256) :
    ∃ bs, uart_send_frame cmd payload = some bs ∧
      (rx_run rxInit (junk ++ bs)).2 = [(cmd, payload)] ∧
      (rx_run rxInit (junk ++ bs)).1.state = 0 ∧
      (rx_run rxInit (junk ++ bs)).1.buf = [] := by
  obtain ⟨henc, hrun⟩ := roundtrip_core cmd payload (by omega)
  refine ⟨_, henc, ?_⟩
  rw [rx_run_append, rx_run_garbage junk hj]
  rw [hrun]
  exact ⟨rfl, rfl, rfl⟩

/-- Witness for `resync_after_markerless_garbage`: garbage [0x00, 0xFF]
followed by the HELLO frame with empty payload. -/
theorem resync_after_markerless_garbage_witness :
    ∃ bs, uart_send_frame 0x01 [] = some bs ∧
      (rx_run rxInit ([0x00, 0xFF] ++ bs)).2 = [(0x01, [])] ∧
      (rx_run rxInit ([0x00, 0xFF] ++ bs)).1.state = 0 ∧
      (rx_run rxInit ([0x00, 0xFF] ++ bs)).1.buf = [] :=
  resync_after_markerless_garbage [0x00, 0xFF] 0x01 [] (by decide) (by decide) (by decide)
    (by decide)

/-! Bit-flip lemmas and the corruption-detection results. -/

lemma flip_bit_cons_succ (a : Nat) (l : List Nat) (n k : Nat) :
    flip_bit (a :: l) (n + 1) k = a :: flip_bit l n k := by
  simp [flip_bit]

lemma flip_bit_length (l : List Nat) (j k : Nat) : (flip_bit l j k).length = l.length := by
  simp [flip_bit]

lemma flip_bit_append_left (l1 l2 : List Nat) (j k : Nat) (h : j < l1.length) :
    flip_bit (l1 ++ l2) j k = flip_bit l1 j k ++ l2 := by
  unfold flip_bit
  rw [List.getD_append _ _ _ _ h, List.set_append_left _ _ h]

lemma flip_bit_append_right (l1 l2 : List Nat) (j k : Nat) (h : l1.length ≤ j) :
    flip_bit (l1 ++ l2) j k = l1 ++ flip_bit l2 (j - l1.length) k := by
  unfold flip_bit
  rw [List.getD_append_right _ _ _ _ h, List.set_append_right _ _ h]

lemma flip_bit_parts (l : List Nat) (j k : Nat) (h : j < l.length) :
    flip_bit l j k = l.take j ++ (l.getD j 0 ^^^ (1 <<< k)) :: l.drop (j + 1) := by
  unfold flip_bit
  rw [List.set_eq_take_append_cons_drop, if_pos h]

lemma take_cons_drop (l : List Nat) (j : Nat) (h : j < l.length) :
    l.take j ++ l.getD j 0 :: l.drop (j + 1) = l := by
  rw [List.getD_eq_getElem l 0 h, ← List.drop_eq_getElem_cons h, List.take_append_drop]

/-- Variant of `rx_run_frame` for an arbitrary nonempty body list. -/
lemma rx_run_frame' (len : Nat) (body : List Nat) (crcb : Nat)
    (hlen : body.length = len) (h1 : 1 ≤ len) (h60 : len ≤ 60) :
    rx_run rxInit (FRAME_START :: len :: (body ++ [crcb])) =
      (⟨0, [], len, 0, body.headD 0⟩,
       if crc8 (len :: body) = crcb then [(body.headD 0, body.drop 1)] else []) := by
  cases body with
  | nil =>
    simp at hlen
    omega
  | cons b rest =>
    have h := rx_run_frame len b rest crcb (by simpa using hlen) h60
    simpa using h

set_option maxRecDepth 8192 in
/-- C7 counterexample: flipping bit 0 of the START byte of the valid frame
for command 0x01 with payload [0xA5, 0x01, 0x04, 0x30] is not silently
discarded: the decoder resynchronizes on the 0xA5 payload byte, decodes an
embedded PING frame, dispatches it, and an ACK response is sent back. -/
theorem start_byte_flip_causes_dispatch :
    uart_send_frame 0x01 [0xA5, 0x01, 0x04, 0x30] =
      some [0xA5, 0x05, 0x01, 0xA5, 0x01, 0x04, 0x30, 0xFD] ∧
    (rx_run rxInit (flip_bit [0xA5, 0x05, 0x01, 0xA5, 0x01, 0x04, 0x30, 0xFD] 0 0)).2 =
      [(0x04, [])] ∧
    (stream_responses ⟨0, false⟩
      (flip_bit [0xA5, 0x05, 0x01, 0xA5, 0x01, 0x04, 0x30, 0xFD] 0 0)).2 = [RSP_ACK] := by
  refine ⟨?_, ?_, ?_⟩ <;> decide

/-- C7 amended: flipping any single bit at byte offset 2 or beyond — the
command byte, a payload byte, or the CRC byte — of a valid encoded frame
makes the decoder discard the frame: nothing is decoded or dispatched, no
response is sent, and the parser returns to wait-start with an empty
buffer.  (Flips in the start marker or length byte prevent the frame from
being recognized at all, and the remaining bytes can then resynchronize as
a different, embedded frame — see the counterexample — so offsets 0 and 1
are excluded.) -/
theorem body_or_crc_bit_flip_discarded (cmd : Nat) (payload : List Nat) (i k : Nat)
    (hc : cmd < 256) (hp : payload.length ≤ 58) (hb : ∀ x ∈ payload, x < 256)
    (hi : 2 ≤ i) (hi2 : i < payload.length + 4) (hk : k < 8) :
    ∀ bs, uart_send_frame cmd payload = some bs →
      (rx_run rxInit (flip_bit bs i k)).2 = [] ∧
      (rx_run rxInit (flip_bit bs i k)).1.state = 0 ∧
      (rx_run rxInit (flip_bit bs i k)).1.buf = [] ∧
      ∀ d, stream_responses d (flip_bit bs i k) = (d, []) := by
  intro bs hbs
  obtain ⟨henc, -⟩ := roundtrip_core cmd payload (by omega)
  rw [henc] at hbs
  have hbs' := Option.some.inj hbs
  subst hbs'
  obtain ⟨j, rfl⟩ : ∃ j, i = j + 2 := ⟨i - 2, by omega⟩
  have hflip : flip_bit (FRAME_START :: (payload.length + 1) :: ((cmd :: payload) ++
        [crc8 ((payload.length + 1) :: cmd :: payload)])) (j + 2) k =
      FRAME_START :: (payload.length + 1) ::
        flip_bit ((cmd :: payload) ++ [crc8 ((payload.length + 1) :: cmd :: payload)]) j k := by
    rw [show j + 2 = (j + 1) + 1 from rfl, flip_bit_cons_succ, flip_bit_cons_succ]
  have hbody : ∀ x ∈ (cmd :: payload), x < 256 := by
    intro x hx
    rcases List.mem_cons.mp hx with h | h
    · exact h ▸ hc
    · exact hb x h
  rcases Nat.lt_or_ge j (payload.length + 1) with hj | hj
  · -- the flipped byte is the command or a payload byte
    have hbl : j < (cmd :: payload).length := by
      simp
      omega
    have happ := flip_bit_append_left (cmd :: payload)
      [crc8 ((payload.length + 1) :: cmd :: payload)] j k hbl
    have hparts := flip_bit_parts (cmd :: payload) j k hbl
    have hbj : (cmd :: payload).getD j 0 < 256 :=
      (List.getD_eq_getElem _ 0 hbl) ▸ hbody _ (List.getElem_mem hbl)
    have hne : crc8 ((payload.length + 1) :: flip_bit (cmd :: payload) j k) ≠
        crc8 ((payload.length + 1) :: cmd :: payload) := by
      have hid := take_cons_drop (cmd :: payload) j hbl
      have e1 : (payload.length + 1) :: flip_bit (cmd :: payload) j k =
          ((payload.length + 1) :: (cmd :: payload).take j) ++
            ((cmd :: payload).getD j 0 ^^^ (1 <<< k)) :: (cmd :: payload).drop (j + 1) := by
        rw [hparts]
        rfl
      have e2 : (payload.length + 1) :: cmd :: payload =
          ((payload.length + 1) :: (cmd :: payload).take j) ++
            (cmd :: payload).getD j 0 :: (cmd :: payload).drop (j + 1) := by
        conv_lhs => rw [show cmd :: payload = (cmd :: payload).take j ++
          (cmd :: payload).getD j 0 :: (cmd :: payload).drop (j + 1) from hid.symm]
        rfl
      rw [e1, e2]
      exact crc8_flip_ne ((payload.length + 1) :: (cmd :: payload).take j) _ _ k hbj
        (fun x hx => hbody x (List.drop_subset _ _ hx)) hk
    have hrun := rx_run_frame' (payload.length + 1) (flip_bit (cmd :: payload) j k)
      (crc8 ((payload.length + 1) :: cmd :: payload))
      (by rw [flip_bit_length]; simp) (by omega) (by omega)
    simp only [stream_responses]
    rw [hflip, happ, hrun, if_neg hne]
    exact ⟨rfl, rfl, rfl, fun d => rfl⟩
  · -- the flipped byte is the CRC byte
    have hjeq : (cmd :: payload).length ≤ j := by
      simp
      omega
    have happ := flip_bit_append_right (cmd :: payload)
      [crc8 ((payload.length + 1) :: cmd :: payload)] j k hjeq
    have hj0 : j - (cmd :: payload).length = 0 := by
      simp
      omega
    have hflipC : flip_bit [crc8 ((payload.length + 1) :: cmd :: payload)]
        (j - (cmd :: payload).length) k =
        [crc8 ((payload.length + 1) :: cmd :: payload) ^^^ (1 <<< k)] := by
      rw [hj0]
      simp [flip_bit]
    have hne : crc8 ((payload.length + 1) :: cmd :: payload) ≠
        crc8 ((payload.length + 1) :: cmd :: payload) ^^^ (1 <<< k) := by
      intro h
      have h0 : crc8 ((payload.length + 1) :: cmd :: payload) ^^^ (1 <<< k) =
          crc8 ((payload.length + 1) :: cmd :: payload) ^^^ 0 := by
        rw [← h, Nat.xor_zero]
      exact one_shiftLeft_ne_zero k (Nat.xor_right_inj.mp h0)
    have hrun := rx_run_frame' (payload.length + 1) (cmd :: payload)
      (crc8 ((payload.length + 1) :: cmd :: payload) ^^^ (1 <<< k))
      (by simp) (by omega) (by omega)
    simp only [stream_responses]
    rw [hflip, happ, hflipC, hrun, if_neg hne]
    exact ⟨rfl, rfl, rfl, fun d => rfl⟩

/-- Witness for `body_or_crc_bit_flip_discarded`: the frame for SET_MODE
with payload [0x03], flipped at byte 2 (the command byte), bit 0. -/
theorem body_or_crc_bit_flip_discarded_witness :
    (rx_run rxInit (flip_bit [0xA5, 0x02, 0x02, 0x03, 0x06] 2 0)).2 = [] ∧
    (rx_run rxInit (flip_bit [0xA5, 0x02, 0x02, 0x03, 0x06] 2 0)).1.state = 0 ∧
    (rx_run rxInit (flip_bit [0xA5, 0x02, 0x02, 0x03, 0x06] 2 0)).1.buf = [] ∧
    ∀ d, stream_responses d (flip_bit [0xA5, 0x02, 0x02, 0x03, 0x06] 2 0) = (d, []) :=
  body_or_crc_bit_flip_discarded 0x02 [0x03] 2 0 (by decide) (by decide) (by decide)
    (by decide) (by decide) (by decide) [0xA5, 0x02, 0x02, 0x03, 0x06] (by decide)

/-! Receive-buffer safety (C10). -/

/-- Structural invariant of the receive parser: the buffer length is pinned
by the parser state and stays at most 62 between steps. -/
def rx_inv (s : RxState) : Prop :=
  (s.state = 0 ∧ s.buf = []) ∨
  (s.state = 1 ∧ s.buf.length = 1) ∨
  (s.state = 2 ∧ s.buf.length = 2 + (s.frame_len - s.bytes_to_read) ∧
    1 ≤ s.bytes_to_read ∧ s.bytes_to_read ≤ s.frame_len ∧ s.frame_len ≤ 60) ∨
  (s.state = 3 ∧ s.buf.length = 2 + s.frame_len ∧ s.frame_len ≤ 60)

lemma rx_inv_init : rx_inv rxInit := Or.inl ⟨rfl, rfl⟩

lemma rx_inv_step (s : RxState) (b : Nat) (h : rx_inv s) : rx_inv (rx_step s b).1 := by
  rcases h with ⟨h0, hbuf⟩ | ⟨h1, hbuf⟩ | ⟨h2, hbuf, hb1, hb2, hb3⟩ | ⟨h3, hbuf, hfl⟩
  · unfold rx_step
    rw [h0]
    dsimp only
    split
    · right; left
      exact ⟨rfl, by simp [hbuf]⟩
    · exact Or.inl ⟨h0, hbuf⟩
  · unfold rx_step
    rw [h1]
    dsimp only
    split
    · exact Or.inl ⟨rfl, rfl⟩
    · rename_i hcond
      right; right; left
      refine ⟨rfl, ?_, ?_, ?_, ?_⟩ <;>
        simp only [List.length_append, List.length_cons, List.length_nil] <;> omega
  · unfold rx_step
    rw [h2]
    dsimp only
    split
    · right; right; right
      refine ⟨rfl, ?_, hb3⟩
      simp only [List.length_append, List.length_cons, List.length_nil]
      omega
    · rename_i hz
      right; right; left
      refine ⟨rfl, ?_, ?_, ?_, hb3⟩ <;>
        simp only [List.length_append, List.length_cons, List.length_nil] <;> omega
  · unfold rx_step
    rw [h3]
    dsimp only
    exact Or.inl ⟨rfl, rfl⟩

lemma rx_inv_run (s : RxState) (bs : List Nat) (h : rx_inv s) : rx_inv (rx_run s bs).1 := by
  induction bs generalizing s with
  | nil => simpa [rx_run] using h
  | cons b bs ih =>
    rw [rx_run_cons]
    exact ih _ (rx_inv_step s b h)

/-- C10: whatever byte stream — arbitrarily long and corrupted — is fed to
a fresh parser, the state reached always holds at most 62 buffered bytes.
Each decoder step writes at most one byte, at index `buf_idx = buf.length`,
so every write of the receive state machine lands at an index of at most
62 < 64 and the buffer holds at most 63 bytes before the state-3 reset of
`buf_idx`: the 64-byte `frame_buf` is never overrun. -/
theorem rx_buffer_bounded (bs : List Nat) :
    (rx_run rxInit bs).1.buf.length ≤ 62 := by
  have h := rx_inv_run rxInit bs rx_inv_init
  rcases h with ⟨-, hbuf⟩ | ⟨-, hbuf⟩ | ⟨-, hbuf, hb1, hb2, hb3⟩ | ⟨-, hbuf, hfl⟩
  · simp [hbuf]
  · omega
  · omega
  · omega

/-- Witness for `rx_buffer_bounded` at a concrete corrupted stream. -/
theorem rx_buffer_bounded_witness :
    (rx_run rxInit [0xA5, 0x3C, 0xFF, 0x00]).1.buf.length ≤ 62 :=
  rx_buffer_bounded [0xA5, 0x3C, 0xFF, 0x00]

/-! Mode arbitration (C2, C3, C9). -/

/-- The event trace of the debounce-collapse scenario: a tap for mode 2 at
t = 0 ms, the 10 ms tick cadence, a tap for mode 1 at t = 50 ms, ticks up
to t = 250 ms. -/
def debounce_events : List ArbEvent :=
  [ArbEvent.tap 2 0] ++ tick_seq 10 5 ++ [ArbEvent.tap 1 50] ++ tick_seq 60 20

/-- C2: from any initial mode other than 1, taps for mode 2 (t = 0) and
mode 1 (t = 50 ms) yield exactly one mode execution — to mode 1 at
t = 250 ms, 200 ms after the last tap.  Mode 2 is never executed, and no
cleanup fires in the window. -/
theorem debounce_collapse (c : Nat) (hc : c ≤ 3) (h1 : c ≠ 1) :
    (arb_run (arbInit c) debounce_events).2.1 = [(1, 250)] ∧
    (arb_run (arbInit c) debounce_events).2.2 = [] := by
  interval_cases c
  · exact ⟨by decide, by decide⟩
  · exact absurd rfl h1
  · exact ⟨by decide, by decide⟩
  · exact ⟨by decide, by decide⟩

/-- Witness for `debounce_collapse` with initial mode 0. -/
theorem debounce_collapse_witness :
    (arb_run (arbInit 0) debounce_events).2.1 = [(1, 250)] ∧
    (arb_run (arbInit 0) debounce_events).2.2 = [] :=
  debounce_collapse 0 (by decide) (by decide)

/-- The failing trace for the single-cleanup claim: tap mode 1 at t = 0
(initial mode 0), 10 ms ticks — the execution fires at t = 200 — then a
tap at t = 300 selecting mode 1, by then the current mode, then 10 ms
ticks up to t = 5310 with no further tap. -/
def tap_current_events : List ArbEvent :=
  [ArbEvent.tap 1 0] ++ tick_seq 10 30 ++ [ArbEvent.tap 1 300] ++ tick_seq 310 501

set_option maxRecDepth 100000 in
/-- C3 failing input, evaluated: after the single execution at t = 200
settles and the last tap (t = 300) selects the already-current mode, the
safety cleanup fires at t = 5300 and then AGAIN at t = 5310 — and keeps
firing every tick — because the never-cleared pending `target_mode` makes
the trailing `cleanup_done` reset re-arm the one-shot on the same tick
that set it.  This contradicts the code's own comments (`only do this ONCE
per mode change`, `will not run again until next mode change`). -/
theorem cleanup_reasserts_every_tick :
    (arb_run (arbInit 0) tap_current_events).2.1 = [(1, 200)] ∧
    (arb_run (arbInit 0) tap_current_events).2.2 = [(1, 5300), (1, 5310)] := by
  exact ⟨by decide, by decide⟩

/-- C9: the report block of every settled mode execution reports exactly
one endpoint ON — the new current mode, as the last report issued — after
reporting each of the other three endpoints OFF; an OFF report for the
target mode itself is never issued. -/
theorem mode_reports_exclusive (m : Nat) (hm : m < 4) :
    ((exec_reports m).filter (fun r => r.2)).map Prod.fst = [m] ∧
    (exec_reports m).getLast? = some (m, true) ∧
    (m, false) ∉ exec_reports m ∧
    ∀ j, j < 4 → j ≠ m → (j, false) ∈ (exec_reports m).take 3 := by
  interval_cases m <;> exact ⟨by decide, by decide, by decide, by decide⟩

/-- Witness for `mode_reports_exclusive` at mode 2. -/
theorem mode_reports_exclusive_witness :
    ((exec_reports 2).filter (fun r => r.2)).map Prod.fst = [2] ∧
    (exec_reports 2).getLast? = some (2, true) ∧
    (2, false) ∉ exec_reports 2 ∧
    ∀ j, j < 4 → j ≠ 2 → (j, false) ∈ (exec_reports 2).take 3 :=
  mode_reports_exclusive 2 (by decide)

/-! Command handlers (C4, C5). -/

/-- C4 counterexample: a 2-byte SET_MODE payload — not exactly 1 byte — is
not rejected: the handler answers ACK and `current_mode` changes from 0 to
2 (the code only checks `len < 1`, never `len != 1`). -/
theorem set_mode_two_byte_payload_accepted :
    handle_cmd_set_mode 0 [0x02, 0x07] = (2, RSP_ACK) ∧ RSP_ACK ≠ RSP_ERR := by
  exact ⟨rfl, by decide⟩

/-- C4 amended: the handler validates only that the payload is non-empty
and that its first byte is at most 3; the length is never checked beyond
`len < 1` and extra bytes are ignored.  On an empty payload or a first
byte above 3 it answers ERR and leaves `current_mode` unchanged; otherwise
it sets `current_mode` to the first payload byte and answers ACK. -/
theorem set_mode_validation (c : Nat) (payload : List Nat) :
    (payload = [] → handle_cmd_set_mode c payload = (c, RSP_ERR)) ∧
    (∀ m rest, payload = m :: rest → 3 < m → handle_cmd_set_mode c payload = (c, RSP_ERR)) ∧
    (∀ m rest, payload = m :: rest → m ≤ 3 → handle_cmd_set_mode c payload = (m, RSP_ACK)) := by
  refine ⟨?_, ?_, ?_⟩
  · intro h
    subst h
    rfl
  · intro m rest h hm
    subst h
    show (if m > 3 then (c, RSP_ERR) else (m, RSP_ACK)) = (c, RSP_ERR)
    rw [if_pos hm]
  · intro m rest h hm
    subst h
    show (if m > 3 then (c, RSP_ERR) else (m, RSP_ACK)) = (m, RSP_ACK)
    rw [if_neg (by omega)]

/-- Witness for `set_mode_validation`: empty payload with mode 5 current. -/
theorem set_mode_validation_witness :
    handle_cmd_set_mode 5 [] = (5, RSP_ERR) :=
  (set_mode_validation 5 []).1 rfl

/-- C5 counterexample: with no pulse in progress the handler answers ACK
but begins nothing — `g_pulse_active` is still false afterwards, whereas
the claim says the triggered action begins, tracked by that very flag.
The handler never calls `start_pulse`; its own TODO comment marks the
action as a placeholder. -/
theorem trigger_ack_begins_nothing :
    handle_cmd_trigger false = (false, RSP_ACK) ∧ (handle_cmd_trigger false).1 ≠ true := by
  exact ⟨rfl, by decide⟩

/-- C5 amended: the BUSY path holds as claimed — a TRIGGER while the pulse
is active answers BUSY and the pulse is neither restarted nor extended
(the flag is returned untouched) — but on the idle path the handler only
answers ACK and begins no action.  The pulse is begun solely by
`start_pulse` (invoked from the Matter attribute callback), which sets the
in-progress flag and is a no-op when the flag is already set. -/
theorem trigger_busy_and_placeholder_ack (p : Bool) :
    handle_cmd_trigger p = (p, if p then RSP_BUSY else RSP_ACK) ∧
    start_pulse false = true ∧ start_pulse true = true := by
  cases p <;> exact ⟨rfl, rfl, rfl⟩

/-- Witness for `trigger_busy_and_placeholder_ack` with an active pulse. -/
theorem trigger_busy_and_placeholder_ack_witness :
    handle_cmd_trigger true = (true, if true then RSP_BUSY else RSP_ACK) ∧
    start_pulse false = true ∧ start_pulse true = true :=
  trigger_busy_and_placeholder_ack true
